import Mathlib

/-!
Verification of the headless Vulkan ray-tracing harness
(`src/headless_vk.cpp`, `src/sample_example.cpp`).

The development shallowly embeds the resource-lifecycle and
renderer-switching logic of the harness: pure computations (format
probing, memory-type selection, aspect-mask computation, the PPM pixel
serialisation) become Lean functions over `Nat`; the stateful Vulkan
calls are modelled by explicit state passing plus event traces that
record the order of the API calls the code issues.
-/

namespace VkRT

/-! ### Vulkan numeric constants (values from `vulkan_core.h`) -/

def VK_FORMAT_UNDEFINED : Nat := 0
def VK_FORMAT_D16_UNORM_S8_UINT : Nat := 128
def VK_FORMAT_D24_UNORM_S8_UINT : Nat := 129
def VK_FORMAT_D32_SFLOAT_S8_UINT : Nat := 130
def VK_FORMAT_FEATURE_DEPTH_STENCIL_ATTACHMENT_BIT : Nat := 512
def VK_IMAGE_ASPECT_DEPTH_BIT : Nat := 2
def VK_IMAGE_ASPECT_STENCIL_BIT : Nat := 4
def UINT64_MAX : Nat := 2 ^ 64 - 1

/-! ### Renderer methods (`SampleExample::RndMethod`)

`enum RndMethod { eRtxPipeline, eRayQuery, eNone }` — the numeric values
are 0, 1, 2; `m_pRender` is `std::array<Renderer*, eNone>`, so it has
exactly `eNone = 2` entries. -/

inductive RndMethod where
  | eRtxPipeline
  | eRayQuery
  | eNone
deriving DecidableEq, Repr

def rndMethodIndex : RndMethod → Nat
  | .eRtxPipeline => 0
  | .eRayQuery => 1
  | .eNone => 2

/-- Size of `std::array<Renderer*, eNone> m_pRender` (sample_example.hpp:114). -/
def pRenderSize : Nat := rndMethodIndex RndMethod.eNone

/-! ### Renderer switching (`SampleExample::createRender`)

The virtual calls the switch performs are recorded as events, in the
order the source issues them (sample_example.cpp:222-237). -/

inductive RenderEvent where
  | deviceWaitIdle
  | destroyBackend (m : RndMethod)
  | setSlot (m : RndMethod)
  | createBackend (m : RndMethod)
deriving DecidableEq, Repr

/-- Event trace of `SampleExample::createRender(method)` starting with
active selection `cur` (`m_rndMethod`).  Mirrors the source: early
return when `method == m_rndMethod`; otherwise wait-idle + destroy of
the old backend guarded by `m_rndMethod != eNone`, then the slot switch,
then `create` on the new slot. -/
def createRenderTrace (cur method : RndMethod) : List RenderEvent :=
  if method = cur then []
  else
    (if cur ≠ RndMethod.eNone then
      [RenderEvent.deviceWaitIdle, RenderEvent.destroyBackend cur]
     else []) ++
    [RenderEvent.setSlot method, RenderEvent.createBackend method]

/-- Value of `m_rndMethod` after `createRender(method)`. -/
def createRenderState (cur method : RndMethod) : RndMethod :=
  if method = cur then cur else method

/-- The set of constructed (alive) backends, updated by one event. -/
def applyRenderEvent (alive : List RndMethod) : RenderEvent → List RndMethod
  | .destroyBackend m => alive.erase m
  | .createBackend m => m :: alive
  | _ => alive

/-- Backends alive when the active selection is `cur`: none when the
state is `eNone`, otherwise exactly the active one. -/
def activeBackends (cur : RndMethod) : List RndMethod :=
  if cur = RndMethod.eNone then [] else [cur]

/-- Largest number of simultaneously constructed backends reached at any
point while processing the events (including the starting point). -/
def maxAliveSteps (alive : List RndMethod) : List RenderEvent → Nat
  | [] => alive.length
  | e :: es => max alive.length (maxAliveSteps (applyRenderEvent alive e) es)

/-- Backends alive after processing all events. -/
def aliveAfter (alive : List RndMethod) (es : List RenderEvent) : List RndMethod :=
  es.foldl applyRenderEvent alive

/-! #### C1 -/

/-- C1: `createRender` is a no-op (empty trace, state unchanged) when the
requested method equals the active one; otherwise it waits for the
device to go idle and destroys the old backend exactly when the current
state is not `eNone`, switches the slot, and only then creates the new
backend — and along the whole trace at most one backend is constructed
at a time. -/
theorem createRender_state_machine (cur method : RndMethod)
    (h : method ≠ cur) :
    (createRenderTrace cur cur = [] ∧ createRenderState cur cur = cur) ∧
    createRenderTrace cur method =
      (if cur = RndMethod.eNone then []
       else [RenderEvent.deviceWaitIdle, RenderEvent.destroyBackend cur]) ++
      [RenderEvent.setSlot method, RenderEvent.createBackend method] ∧
    createRenderState cur method = method ∧
    maxAliveSteps (activeBackends cur) (createRenderTrace cur method) ≤ 1 := by
  cases cur <;> cases method <;> simp_all <;> decide

/-- Witness for C1 at `cur = eNone`, `method = eRtxPipeline`. -/
theorem createRender_state_machine_witness :
    (createRenderTrace RndMethod.eNone RndMethod.eNone = [] ∧
      createRenderState RndMethod.eNone RndMethod.eNone = RndMethod.eNone) ∧
    createRenderTrace RndMethod.eNone RndMethod.eRtxPipeline =
      (if RndMethod.eNone = RndMethod.eNone then []
       else [RenderEvent.deviceWaitIdle, RenderEvent.destroyBackend RndMethod.eNone]) ++
      [RenderEvent.setSlot RndMethod.eRtxPipeline,
       RenderEvent.createBackend RndMethod.eRtxPipeline] ∧
    createRenderState RndMethod.eNone RndMethod.eRtxPipeline = RndMethod.eRtxPipeline ∧
    maxAliveSteps (activeBackends RndMethod.eNone)
      (createRenderTrace RndMethod.eNone RndMethod.eRtxPipeline) ≤ 1 :=
  createRender_state_machine RndMethod.eNone RndMethod.eRtxPipeline (by decide)

/-! ### Renderer-array bounds (`m_pRender`)

`std::array<Renderer*, eNone> m_pRender` has `eNone = 2` entries, indexed
by the numeric value of the method; `m_pRender[eNone]` is out of bounds. -/

/-- Indices of the `m_pRender` accesses performed by `createRender(method)`
with active selection `cur` (sample_example.cpp:222-237): the guarded
destroy reads `m_pRender[m_rndMethod]` before the switch, the create reads
`m_pRender[m_rndMethod]` after `m_rndMethod = method`. -/
def createRenderAccesses (cur method : RndMethod) : List Nat :=
  if method = cur then []
  else
    (if cur ≠ RndMethod.eNone then [rndMethodIndex cur] else []) ++
    [rndMethodIndex method]

/-- Indices of the `m_pRender` accesses performed by `renderScene`
(sample_example.cpp:288-321): after the `frame >= maxFrames` early return,
`setPushContants` and `run` both go through `m_pRender[m_rndMethod]`. -/
def renderSceneAccesses (active : RndMethod) (frame maxFrames : Int) : List Nat :=
  if frame ≥ maxFrames then []
  else [rndMethodIndex active, rndMethodIndex active]

/-! #### C10 -/

/-- C10: `m_pRender` holds exactly two entries; all `m_pRender` accesses of
`createRender` and `renderScene` are in bounds when the requested/active
method is one of the two real backends, and the index is out of bounds for
`createRender(eNone)` from a different current selection, and for
`renderScene` past its early return with active state `eNone`. -/
theorem pRender_access_bounds (cur method active : RndMethod)
    (frame maxFrames : Int) (hm : method ≠ cur) (hf : frame < maxFrames) :
    pRenderSize = 2 ∧
    (method ≠ RndMethod.eNone →
      ∀ i ∈ createRenderAccesses cur method, i < pRenderSize) ∧
    (method = RndMethod.eNone →
      rndMethodIndex RndMethod.eNone ∈ createRenderAccesses cur method ∧
      ¬ rndMethodIndex RndMethod.eNone < pRenderSize) ∧
    (active ≠ RndMethod.eNone →
      ∀ i ∈ renderSceneAccesses active frame maxFrames, i < pRenderSize) ∧
    (active = RndMethod.eNone →
      rndMethodIndex active ∈ renderSceneAccesses active frame maxFrames ∧
      ¬ rndMethodIndex active < pRenderSize) := by
  have hnot : ¬ frame ≥ maxFrames := not_le.mpr hf
  cases cur <;> cases method <;> cases active <;>
    simp_all [renderSceneAccesses, createRenderAccesses, pRenderSize, rndMethodIndex]

/-- Witness for C10 at `cur = eRtxPipeline`, `method = eRayQuery`,
`active = eRayQuery`, `frame = 0`, `maxFrames = 100000`. -/
theorem pRender_access_bounds_witness :
    pRenderSize = 2 ∧
    (RndMethod.eRayQuery ≠ RndMethod.eNone →
      ∀ i ∈ createRenderAccesses RndMethod.eRtxPipeline RndMethod.eRayQuery,
        i < pRenderSize) ∧
    (RndMethod.eRayQuery = RndMethod.eNone →
      rndMethodIndex RndMethod.eNone ∈
        createRenderAccesses RndMethod.eRtxPipeline RndMethod.eRayQuery ∧
      ¬ rndMethodIndex RndMethod.eNone < pRenderSize) ∧
    (RndMethod.eRayQuery ≠ RndMethod.eNone →
      ∀ i ∈ renderSceneAccesses RndMethod.eRayQuery 0 100000, i < pRenderSize) ∧
    (RndMethod.eRayQuery = RndMethod.eNone →
      rndMethodIndex RndMethod.eRayQuery ∈
        renderSceneAccesses RndMethod.eRayQuery 0 100000 ∧
      ¬ rndMethodIndex RndMethod.eRayQuery < pRenderSize) :=
  pRender_access_bounds RndMethod.eRtxPipeline RndMethod.eRayQuery
    RndMethod.eRayQuery 0 100000 (by decide) (by decide)

/-! ### Depth-format probing (`HeadlessAppVK::setup`) -/

/-- Candidate list probed by `setup` (headless_vk.cpp:35), priority order. -/
def depthFormatCandidates : List Nat :=
  [VK_FORMAT_D24_UNORM_S8_UINT, VK_FORMAT_D32_SFLOAT_S8_UINT, VK_FORMAT_D16_UNORM_S8_UINT]

/-- Loop-body test `(formatProp.optimalTilingFeatures & feature) == feature`
with `feature = VK_FORMAT_FEATURE_DEPTH_STENCIL_ATTACHMENT_BIT`;
`optimalTilingFeatures` abstracts `vkGetPhysicalDeviceFormatProperties`. -/
def depthFormatQualifies (optimalTilingFeatures : Nat → Nat) (f : Nat) : Bool :=
  Nat.land (optimalTilingFeatures f) VK_FORMAT_FEATURE_DEPTH_STENCIL_ATTACHMENT_BIT
    == VK_FORMAT_FEATURE_DEPTH_STENCIL_ATTACHMENT_BIT

/-- Value of `m_depthFormat` after the probing step of `setup`
(headless_vk.cpp:31-45).  The loop runs only when the caller-supplied
format is `VK_FORMAT_UNDEFINED`, `break`s at the first qualifying
candidate, and — when no candidate qualifies — falls through leaving
`m_depthFormat` untouched; `setup` then simply returns (there is no
assertion or abort in this function). -/
def setupDepthFormat (depthFormat : Nat) (optimalTilingFeatures : Nat → Nat) : Nat :=
  if depthFormat = VK_FORMAT_UNDEFINED then
    match depthFormatCandidates.find? (depthFormatQualifies optimalTilingFeatures) with
    | some f => f
    | none => depthFormat
  else depthFormat

/-- Probe as the spec describes it ("selects the first candidate whose
optimal-tiling features include the depth/stencil-attachment capability;
if no candidate qualifies, the run terminates with a fatal configuration
error"): `none` is the fatal outcome.  Written from the spec's words, to
be compared with `setupDepthFormat`. -/
def specProbeDepthFormat (optimalTilingFeatures : Nat → Nat) : Option Nat :=
  depthFormatCandidates.find? (depthFormatQualifies optimalTilingFeatures)

/-! #### C2 -/

/-- C2 counterexample: on a device supporting none of the three candidates
(`optimalTilingFeatures ≡ 0`) the spec-modelled probe demands a fatal
error (`none`), but `setup` completes normally, leaving the depth format
`VK_FORMAT_UNDEFINED` — it has no fatal path. -/
theorem setup_probe_failure_not_fatal :
    (∀ f ∈ depthFormatCandidates, depthFormatQualifies (fun _ => 0) f = false) ∧
    specProbeDepthFormat (fun _ => 0) = none ∧
    setupDepthFormat VK_FORMAT_UNDEFINED (fun _ => 0) = VK_FORMAT_UNDEFINED := by
  refine ⟨by decide, by decide, by decide⟩

/-- C2 amended: with depth format `VK_FORMAT_UNDEFINED` requested, `setup`
selects the first candidate (in priority order D24S8, D32S8, D16S8) whose
optimal-tiling features include the depth/stencil-attachment bit; when no
candidate qualifies the depth format simply remains `VK_FORMAT_UNDEFINED`
(no fatal error); a caller-supplied (non-undefined) format suppresses the
probe. -/
theorem setup_depthFormat_probe (feat : Nat → Nat) (g : Nat)
    (hg : g ≠ VK_FORMAT_UNDEFINED) :
    (depthFormatQualifies feat VK_FORMAT_D24_UNORM_S8_UINT = true →
      setupDepthFormat VK_FORMAT_UNDEFINED feat = VK_FORMAT_D24_UNORM_S8_UINT) ∧
    (depthFormatQualifies feat VK_FORMAT_D24_UNORM_S8_UINT = false →
     depthFormatQualifies feat VK_FORMAT_D32_SFLOAT_S8_UINT = true →
      setupDepthFormat VK_FORMAT_UNDEFINED feat = VK_FORMAT_D32_SFLOAT_S8_UINT) ∧
    (depthFormatQualifies feat VK_FORMAT_D24_UNORM_S8_UINT = false →
     depthFormatQualifies feat VK_FORMAT_D32_SFLOAT_S8_UINT = false →
     depthFormatQualifies feat VK_FORMAT_D16_UNORM_S8_UINT = true →
      setupDepthFormat VK_FORMAT_UNDEFINED feat = VK_FORMAT_D16_UNORM_S8_UINT) ∧
    ((∀ f ∈ depthFormatCandidates, depthFormatQualifies feat f = false) →
      setupDepthFormat VK_FORMAT_UNDEFINED feat = VK_FORMAT_UNDEFINED) ∧
    setupDepthFormat g feat = g := by
  refine ⟨fun h1 => ?_, fun h1 h2 => ?_, fun h1 h2 h3 => ?_, fun h => ?_, ?_⟩ <;>
    simp_all [setupDepthFormat, depthFormatCandidates, List.find?]

/-- Witness for C2's amended theorem: a device whose only qualifying
candidate is D32S8 makes the probe skip D24S8 and select D32S8. -/
theorem setup_depthFormat_probe_witness :
    setupDepthFormat VK_FORMAT_UNDEFINED
      (fun f => if f = VK_FORMAT_D32_SFLOAT_S8_UINT then 512 else 0) =
      VK_FORMAT_D32_SFLOAT_S8_UINT :=
  (setup_depthFormat_probe
      (fun f => if f = VK_FORMAT_D32_SFLOAT_S8_UINT then 512 else 0)
      VK_FORMAT_D24_UNORM_S8_UINT (by decide)).2.1 (by decide) (by decide)

/-! ### Memory-type selection (`HeadlessAppVK::getMemoryType`) -/

/-- Loop-body test of `getMemoryType` (headless_vk.cpp:343): memory type `i`
with property flags `flags` is acceptable when its bit is enabled in
`typeBits` and its flags are a superset of the requested `properties`. -/
def memTypeMatches (typeBits properties i flags : Nat) : Prop :=
  Nat.land typeBits (Nat.shiftLeft 1 i) > 0 ∧
  Nat.land flags properties = properties

instance (typeBits properties i flags : Nat) :
    Decidable (memTypeMatches typeBits properties i flags) := by
  unfold memTypeMatches; infer_instance

/-- The scan loop of `getMemoryType`, with `i` the index of the head of the
remaining table. -/
def getMemoryTypeGo (typeBits properties : Nat) : Nat → List Nat → Option Nat
  | _, [] => none
  | i, flags :: rest =>
    if memTypeMatches typeBits properties i flags then some i
    else getMemoryTypeGo typeBits properties (i + 1) rest

/-- `HeadlessAppVK::getMemoryType` (headless_vk.cpp:336-350).  `memoryTypes`
is the `propertyFlags` column of the physical device's memory-type table in
index order; `none` models the failure path `LOGE(err); assert(0)` — a
fatal abort after logging, not a recoverable error return. -/
def getMemoryType (memoryTypes : List Nat) (typeBits properties : Nat) : Option Nat :=
  getMemoryTypeGo typeBits properties 0 memoryTypes

theorem getMemoryTypeGo_some (typeBits properties : Nat) :
    ∀ (l : List Nat) (i0 i : Nat),
      getMemoryTypeGo typeBits properties i0 l = some i →
      i0 ≤ i ∧ i - i0 < l.length ∧
      memTypeMatches typeBits properties i (l.getD (i - i0) 0) ∧
      ∀ j, i0 ≤ j → j < i → ¬ memTypeMatches typeBits properties j (l.getD (j - i0) 0) := by
  intro l
  induction l with
  | nil => intro i0 i h; simp [getMemoryTypeGo] at h
  | cons flags rest ih =>
    intro i0 i h
    by_cases hm : memTypeMatches typeBits properties i0 flags
    · simp [getMemoryTypeGo, hm] at h
      subst h
      exact ⟨le_refl _, by simp, by simpa using hm, fun j hj1 hj2 => absurd hj1 (not_le.mpr hj2)⟩
    · simp [getMemoryTypeGo, hm] at h
      obtain ⟨h1, h2, h3, h4⟩ := ih (i0 + 1) i h
      refine ⟨le_trans (Nat.le_succ _) h1, ?_, ?_, ?_⟩
      · simp only [List.length_cons]; omega
      · have he : i - i0 = (i - (i0 + 1)) + 1 := by omega
        rw [he, List.getD_cons_succ]
        exact h3
      · intro j hj1 hj2
        rcases Nat.eq_or_lt_of_le hj1 with rfl | hj
        · rw [Nat.sub_self, List.getD_cons_zero]
          exact hm
        · have he : j - i0 = (j - (i0 + 1)) + 1 := by omega
          rw [he, List.getD_cons_succ]
          exact h4 j hj hj2

theorem getMemoryTypeGo_none (typeBits properties : Nat) :
    ∀ (l : List Nat) (i0 : Nat),
      getMemoryTypeGo typeBits properties i0 l = none ↔
      ∀ k, k < l.length → ¬ memTypeMatches typeBits properties (i0 + k) (l.getD k 0) := by
  intro l
  induction l with
  | nil => intro i0; simp [getMemoryTypeGo]
  | cons flags rest ih =>
    intro i0
    by_cases hm : memTypeMatches typeBits properties i0 flags
    · simp only [getMemoryTypeGo, if_pos hm]
      constructor
      · intro h; exact (Option.some_ne_none _ h).elim
      · intro h
        have h0 := h 0 (by simp)
        rw [Nat.add_zero, List.getD_cons_zero] at h0
        exact (h0 hm).elim
    · simp only [getMemoryTypeGo, if_neg hm]
      rw [ih (i0 + 1)]
      constructor
      · intro h k hk
        cases k with
        | zero =>
          rw [Nat.add_zero, List.getD_cons_zero]
          exact hm
        | succ k' =>
          have hk' : k' < rest.length := by
            simp only [List.length_cons] at hk; omega
          have h' := h k' hk'
          have he : i0 + 1 + k' = i0 + (k' + 1) := by omega
          rw [he] at h'
          rw [List.getD_cons_succ]
          exact h'
      · intro h k hk
        have h' := h (k + 1) (by simp only [List.length_cons]; omega)
        have he : i0 + (k + 1) = i0 + 1 + k := by omega
        rw [he, List.getD_cons_succ] at h'
        exact h'

/-! #### C7 -/

/-- C7: `getMemoryType` returns the lowest index whose memory type is
enabled in the bitmask and whose flags are a superset of the requested
properties; the `none` outcome — the source's `LOGE` + `assert(0)` fatal
path — occurs exactly when no memory type satisfies the mask, so whenever
a qualifying type exists the scan returns one (and by the first conjunct,
the first one). -/
theorem getMemoryType_first_match (memoryTypes : List Nat) (typeBits properties : Nat) :
    (∀ i, getMemoryType memoryTypes typeBits properties = some i →
      i < memoryTypes.length ∧
      memTypeMatches typeBits properties i (memoryTypes.getD i 0) ∧
      ∀ j, j < i → ¬ memTypeMatches typeBits properties j (memoryTypes.getD j 0)) ∧
    (getMemoryType memoryTypes typeBits properties = none ↔
      ∀ k, k < memoryTypes.length →
        ¬ memTypeMatches typeBits properties k (memoryTypes.getD k 0)) ∧
    ((∃ k, k < memoryTypes.length ∧
        memTypeMatches typeBits properties k (memoryTypes.getD k 0)) →
      ∃ i, getMemoryType memoryTypes typeBits properties = some i) := by
  have hx : getMemoryType memoryTypes typeBits properties = none ↔
      ∀ k, k < memoryTypes.length →
        ¬ memTypeMatches typeBits properties k (memoryTypes.getD k 0) := by
    simpa using getMemoryTypeGo_none typeBits properties memoryTypes 0
  refine ⟨?_, hx, ?_⟩
  · intro i h
    obtain ⟨h1, h2, h3, h4⟩ := getMemoryTypeGo_some typeBits properties memoryTypes 0 i h
    exact ⟨by simpa using h2, by simpa using h3, fun j hj => by simpa using h4 j (Nat.zero_le _) hj⟩
  · rintro ⟨k, hk, hmatch⟩
    cases hopt : getMemoryType memoryTypes typeBits properties with
    | some i => exact ⟨i, rfl⟩
    | none => exact absurd hmatch (hx.mp hopt k hk)

/-- Witness for C7: table `[flags 1, flags 3]`, bitmask `0b10` (only type 1
enabled), requested properties `1`: a qualifying type exists, the scan
returns an index, and index 1 is the first (and only) match. -/
theorem getMemoryType_first_match_witness :
    (1 < ([1, 3] : List Nat).length ∧
      memTypeMatches 2 1 1 (([1, 3] : List Nat).getD 1 0) ∧
      ∀ j, j < 1 → ¬ memTypeMatches 2 1 j (([1, 3] : List Nat).getD j 0)) ∧
    (∃ i, getMemoryType [1, 3] 2 1 = some i) :=
  ⟨(getMemoryType_first_match [1, 3] 2 1).1 1 (by decide),
   (getMemoryType_first_match [1, 3] 2 1).2.2 ⟨1, by decide, by decide⟩⟩

/-! ### Depth-view aspect mask (`HeadlessAppVK::createDepthBuffer`) -/

/-- Aspect mask of the subresource range of the depth view
(headless_vk.cpp:283-285): always the depth aspect, with the stencil
aspect OR-ed in when `m_depthFormat >= VK_FORMAT_D16_UNORM_S8_UINT` — a
numeric comparison on the format enumeration, not a capability query. -/
def depthViewAspectMask (depthFormat : Nat) : Nat :=
  let base := VK_IMAGE_ASPECT_DEPTH_BIT
  if VK_FORMAT_D16_UNORM_S8_UINT ≤ depthFormat then
    Nat.lor base VK_IMAGE_ASPECT_STENCIL_BIT
  else base

/-! #### C9 -/

/-- C9: the depth view's aspect mask contains the stencil aspect iff the
chosen depth format is numerically at least `VK_FORMAT_D16_UNORM_S8_UINT`
(value 128, the smallest combined depth-stencil format), and always
contains the depth aspect. -/
theorem depthView_aspectMask_spec (f : Nat) :
    (Nat.land (depthViewAspectMask f) VK_IMAGE_ASPECT_STENCIL_BIT ≠ 0 ↔
      VK_FORMAT_D16_UNORM_S8_UINT ≤ f) ∧
    Nat.land (depthViewAspectMask f) VK_IMAGE_ASPECT_DEPTH_BIT ≠ 0 ∧
    VK_FORMAT_D16_UNORM_S8_UINT = 128 := by
  by_cases h : VK_FORMAT_D16_UNORM_S8_UINT ≤ f <;>
    simp [depthViewAspectMask, h] <;> decide

/-! ### Render region (`SampleExample::setRenderRegion`) -/

/-- `VkRect2D = { int32 x, y; uint32 width, height }` — four 4-byte fields,
no padding, so the source's `memcmp(&a, &b, sizeof(VkRect2D)) != 0` holds
exactly when the structures differ fieldwise. -/
structure VkRect2D where
  offsetX : Int
  offsetY : Int
  extentWidth : Nat
  extentHeight : Nat
deriving DecidableEq, Repr

/-- The members of `SampleExample` that `setRenderRegion` reads or writes:
`m_renderRegion` and `m_rtxState.frame`. -/
structure RegionFrameState where
  renderRegion : VkRect2D
  frame : Int
deriving DecidableEq, Repr

/-- `SampleExample::resetFrame` (sample_example.cpp:131-134). -/
def resetFrame (st : RegionFrameState) : RegionFrameState :=
  { st with frame := -1 }

/-- `SampleExample::setRenderRegion` (sample_example.cpp:242-247): call
`resetFrame` when `memcmp` reports a difference, then store the region. -/
def setRenderRegion (st : RegionFrameState) (size : VkRect2D) : RegionFrameState :=
  let st1 := if st.renderRegion ≠ size then resetFrame st else st
  { st1 with renderRegion := size }

/-! #### C6 -/

/-- C6: after `setRenderRegion(size)` the stored region equals `size`, and
the frame counter is set to the accumulation-reset sentinel `-1` exactly
when `size` differs from the previously stored region (otherwise the frame
counter is left unchanged). -/
theorem setRenderRegion_spec (st : RegionFrameState) (size : VkRect2D) :
    (setRenderRegion st size).renderRegion = size ∧
    (setRenderRegion st size).frame =
      (if size = st.renderRegion then st.frame else -1) := by
  by_cases h : st.renderRegion = size
  · simp [setRenderRegion, resetFrame, h]
  · have h2 : ¬ size = st.renderRegion := fun hh => h hh.symm
    simp [setRenderRegion, resetFrame, h, h2]

/-! ### Submission helpers (`HeadlessAppVK::submitWork`,
`createTempCmdBuffer`, `submitTempCmdBuffer`)

The Vulkan calls each helper issues are recorded in program order;
handles are abstract numeric names. -/

inductive SubmitEvent where
  | allocateCommandBuffer (cmd : Nat)
  | beginCommandBuffer (cmd : Nat)
  | endCommandBuffer (cmd : Nat)
  | createFence (fence : Nat)
  | queueSubmit (cmds : List Nat) (fence : Option Nat)
  | waitForFences (fences : List Nat) (waitAll : Bool) (timeout : Nat)
  | queueWaitIdle
  | destroyFence (fence : Nat)
  | freeCommandBuffer (cmd : Nat)
deriving DecidableEq, Repr

/-- `HeadlessAppVK::submitWork` (headless_vk.cpp:311-322); `fence` is the
fresh handle `vkCreateFence` writes.  One submit of one command buffer,
an infinite-timeout wait, then the fence is destroyed. -/
def submitWork (cmdBuffer fence : Nat) : List SubmitEvent :=
  [SubmitEvent.createFence fence,
   SubmitEvent.queueSubmit [cmdBuffer] (some fence),
   SubmitEvent.waitForFences [fence] true UINT64_MAX,
   SubmitEvent.destroyFence fence]

/-- `HeadlessAppVK::createTempCmdBuffer` (headless_vk.cpp:352-366). -/
def createTempCmdBuffer (cmd : Nat) : List SubmitEvent :=
  [SubmitEvent.allocateCommandBuffer cmd, SubmitEvent.beginCommandBuffer cmd]

/-- `HeadlessAppVK::submitTempCmdBuffer` (headless_vk.cpp:368-378): end the
buffer, submit it with a null fence (`vkQueueSubmit(..., {})`), block via
`vkQueueWaitIdle`, free the buffer. -/
def submitTempCmdBuffer (cmd : Nat) : List SubmitEvent :=
  [SubmitEvent.endCommandBuffer cmd,
   SubmitEvent.queueSubmit [cmd] none,
   SubmitEvent.queueWaitIdle,
   SubmitEvent.freeCommandBuffer cmd]

/-- Fence-related calls. -/
def isFenceEvent : SubmitEvent → Bool
  | .createFence _ => true
  | .waitForFences _ _ _ => true
  | .destroyFence _ => true
  | _ => false

/-- A host-blocking point: an infinite fence wait or a queue-wait-idle. -/
def isBlockingWait : SubmitEvent → Bool
  | .waitForFences _ _ t => t == UINT64_MAX
  | .queueWaitIdle => true
  | _ => false

def isSubmission : SubmitEvent → Bool
  | .queueSubmit _ _ => true
  | _ => false

/-- Every submission in the trace is followed, strictly later and before
the trace ends (i.e. before the helper returns), by a host-blocking wait. -/
def submitsAreSynchronous : List SubmitEvent → Bool
  | [] => true
  | e :: es => (!isSubmission e || es.any isBlockingWait) && submitsAreSynchronous es

/-! #### C8 -/

/-- C8: `submitWork` issues exactly the sequence create-fence, one submit
of exactly the given command buffer with that fence, an infinite-timeout
wait on that fence, destroy-fence; in particular it performs exactly one
submission and every submission is followed by a blocking wait before the
helper returns. -/
theorem submitWork_spec (cmd fence : Nat) :
    submitWork cmd fence =
      [SubmitEvent.createFence fence,
       SubmitEvent.queueSubmit [cmd] (some fence),
       SubmitEvent.waitForFences [fence] true UINT64_MAX,
       SubmitEvent.destroyFence fence] ∧
    (submitWork cmd fence).filter isSubmission =
      [SubmitEvent.queueSubmit [cmd] (some fence)] ∧
    submitsAreSynchronous (submitWork cmd fence) = true := by
  refine ⟨rfl, ?_, ?_⟩ <;>
    simp [submitWork, submitsAreSynchronous, isSubmission, isBlockingWait,
      List.filter]

/-! #### C4 -/

/-- C4 counterexample: the transient command-buffer operation (allocate,
begin, …, end, submit, wait, free, at `cmd = 1`) contains no fence call
at all — the submit passes a null fence and the blocking is done by
`vkQueueWaitIdle` — contradicting the claimed dedicated
create/wait/destroy fence. -/
theorem submitTempCmdBuffer_no_fence :
    (createTempCmdBuffer 1 ++ submitTempCmdBuffer 1).all
      (fun e => !isFenceEvent e) = true ∧
    SubmitEvent.queueSubmit [1] none ∈ submitTempCmdBuffer 1 ∧
    SubmitEvent.queueWaitIdle ∈ submitTempCmdBuffer 1 := by
  refine ⟨by decide, by decide, by decide⟩

/-- C4 amended: every transient command-buffer operation follows the
sequence allocate, begin, (caller records), end, submit of exactly that
one command buffer with a null fence, then blocks until GPU completion
via `vkQueueWaitIdle` on the queue — no per-submission fence is used —
and finally frees the command buffer. -/
theorem tempCmdBuffer_spec (cmd : Nat) :
    createTempCmdBuffer cmd =
      [SubmitEvent.allocateCommandBuffer cmd, SubmitEvent.beginCommandBuffer cmd] ∧
    submitTempCmdBuffer cmd =
      [SubmitEvent.endCommandBuffer cmd,
       SubmitEvent.queueSubmit [cmd] none,
       SubmitEvent.queueWaitIdle,
       SubmitEvent.freeCommandBuffer cmd] ∧
    (submitTempCmdBuffer cmd).filter isSubmission =
      [SubmitEvent.queueSubmit [cmd] none] ∧
    submitsAreSynchronous (createTempCmdBuffer cmd ++ submitTempCmdBuffer cmd) = true ∧
    (createTempCmdBuffer cmd ++ submitTempCmdBuffer cmd).all
      (fun e => !isFenceEvent e) = true := by
  refine ⟨rfl, rfl, ?_, ?_, ?_⟩ <;>
    simp [createTempCmdBuffer, submitTempCmdBuffer, submitsAreSynchronous,
      isSubmission, isBlockingWait, isFenceEvent, List.filter]

/-! ### Render-target lifecycle (`HeadlessAppVK::createColorBuffer`,
`createDepthBuffer`)

One render target is the triple `m_*Image` / `m_*Memory` / `m_*View`
(`VK_NULL_HANDLE` modelled as `none`).  To reason about leaks, the state
additionally books every handle currently alive (created and not yet
destroyed/freed) per resource kind, and a counter producing fresh
handles for `vkCreateImage` / `vkAllocateMemory` / `vkCreateImageView`. -/

structure TargetState where
  view : Option Nat
  image : Option Nat
  memory : Option Nat
  aliveViews : List Nat
  aliveImages : List Nat
  aliveMemories : List Nat
  nextHandle : Nat
deriving DecidableEq, Repr

/-- Initial state: all three members are `VK_NULL_HANDLE`
(headless_vk.hpp:89-94), nothing alive. -/
def initialTarget : TargetState :=
  { view := none, image := none, memory := none,
    aliveViews := [], aliveImages := [], aliveMemories := [], nextHandle := 1 }

/-- One run of `HeadlessAppVK::createColorBuffer` (headless_vk.cpp:179-227)
or `createDepthBuffer` (headless_vk.cpp:232-294) — both follow the same
lifecycle: destroy the view, then the image, then the memory, each guarded
by an `if (handle)` was-it-ever-created check; then create a fresh image,
allocate fresh memory (and bind), and create a fresh view, each overwriting
the corresponding member. -/
def recreateTarget (st : TargetState) : TargetState :=
  let s1 :=
    match st.view with
    | some v => { st with aliveViews := st.aliveViews.erase v }
    | none => st
  let s2 :=
    match s1.image with
    | some i => { s1 with aliveImages := s1.aliveImages.erase i }
    | none => s1
  let s3 :=
    match s2.memory with
    | some m => { s2 with aliveMemories := s2.aliveMemories.erase m }
    | none => s2
  let img := s3.nextHandle
  let s4 := { s3 with image := some img, aliveImages := img :: s3.aliveImages,
                      nextHandle := s3.nextHandle + 1 }
  let mem := s4.nextHandle
  let s5 := { s4 with memory := some mem, aliveMemories := mem :: s4.aliveMemories,
                      nextHandle := s4.nextHandle + 1 }
  let v := s5.nextHandle
  { s5 with view := some v, aliveViews := v :: s5.aliveViews,
            nextHandle := s5.nextHandle + 1 }

/-- Lifecycle of the color target (`m_colorView/Image/Memory`). -/
def createColorBuffer : TargetState → TargetState := recreateTarget

/-- Lifecycle of the depth target (`m_depthView/Image/Memory`); identical
resource discipline (the formats/aspects it also sets are modelled by
`depthViewAspectMask` above). -/
def createDepthBuffer : TargetState → TargetState := recreateTarget

/-- The RenderTarget invariant of the spec, plus bookkeeping exactness:
image, memory and view are all valid, and the only alive handles of each
kind are exactly the current members — one image/memory/view triple alive. -/
def targetIntact (st : TargetState) : Prop :=
  ∃ v i m, st.view = some v ∧ st.image = some i ∧ st.memory = some m ∧
    st.aliveViews = [v] ∧ st.aliveImages = [i] ∧ st.aliveMemories = [m]

theorem recreateTarget_intact (st : TargetState) (h : targetIntact st) :
    targetIntact (recreateTarget st) := by
  obtain ⟨v, i, m, hv, hi, hm, hav, hai, ham⟩ := h
  refine ⟨st.nextHandle + 2, st.nextHandle, st.nextHandle + 1, ?_, ?_, ?_, ?_, ?_, ?_⟩ <;>
    simp [recreateTarget, hv, hi, hm, hav, hai, ham]

theorem recreateTarget_initial_intact : targetIntact (recreateTarget initialTarget) :=
  ⟨3, 1, 2, rfl, rfl, rfl, rfl, rfl, rfl⟩

theorem recreateTarget_iterate_intact (N : Nat) (hN : 1 ≤ N) :
    targetIntact (Nat.iterate recreateTarget N initialTarget) := by
  induction N with
  | zero => cases hN
  | succ k ih =>
    rw [Function.iterate_succ_apply']
    cases Nat.eq_zero_or_pos k with
    | inl h0 => subst h0; exact recreateTarget_initial_intact
    | inr hk => exact recreateTarget_intact _ (ih hk)

/-! #### C3 -/

/-- C3: for every `N ≥ 1`, after `N` consecutive calls to
`createColorBuffer` (resp. `createDepthBuffer`) starting from the
null-initialised members, exactly one image, one memory allocation and
one view are alive — the current members — and the all-or-nothing
RenderTarget invariant holds (all three valid). -/
theorem renderTarget_no_leak (N : Nat) (hN : 1 ≤ N) :
    (targetIntact (Nat.iterate createColorBuffer N initialTarget) ∧
      (Nat.iterate createColorBuffer N initialTarget).aliveViews.length = 1 ∧
      (Nat.iterate createColorBuffer N initialTarget).aliveImages.length = 1 ∧
      (Nat.iterate createColorBuffer N initialTarget).aliveMemories.length = 1) ∧
    (targetIntact (Nat.iterate createDepthBuffer N initialTarget) ∧
      (Nat.iterate createDepthBuffer N initialTarget).aliveViews.length = 1 ∧
      (Nat.iterate createDepthBuffer N initialTarget).aliveImages.length = 1 ∧
      (Nat.iterate createDepthBuffer N initialTarget).aliveMemories.length = 1) := by
  have h := recreateTarget_iterate_intact N hN
  obtain ⟨v, i, m, hv, hi, hm, hav, hai, ham⟩ := h
  have hc : Nat.iterate createColorBuffer N initialTarget =
      Nat.iterate recreateTarget N initialTarget := rfl
  have hd : Nat.iterate createDepthBuffer N initialTarget =
      Nat.iterate recreateTarget N initialTarget := rfl
  rw [hc, hd]
  exact ⟨⟨⟨v, i, m, hv, hi, hm, hav, hai, ham⟩,
          by simp [hav], by simp [hai], by simp [ham]⟩,
         ⟨⟨v, i, m, hv, hi, hm, hav, hai, ham⟩,
          by simp [hav], by simp [hai], by simp [ham]⟩⟩

/-- Witness for C3 at `N = 2`. -/
theorem renderTarget_no_leak_witness :
    (targetIntact (Nat.iterate createColorBuffer 2 initialTarget) ∧
      (Nat.iterate createColorBuffer 2 initialTarget).aliveViews.length = 1 ∧
      (Nat.iterate createColorBuffer 2 initialTarget).aliveImages.length = 1 ∧
      (Nat.iterate createColorBuffer 2 initialTarget).aliveMemories.length = 1) ∧
    (targetIntact (Nat.iterate createDepthBuffer 2 initialTarget) ∧
      (Nat.iterate createDepthBuffer 2 initialTarget).aliveViews.length = 1 ∧
      (Nat.iterate createDepthBuffer 2 initialTarget).aliveImages.length = 1 ∧
      (Nat.iterate createDepthBuffer 2 initialTarget).aliveMemories.length = 1) :=
  renderTarget_no_leak 2 (by decide)

/-! ### Frame export (`SampleExample::dumpImage`)

`dumpImage` (sample_example.cpp:352-495) maps the linearly-tiled
destination image and streams a binary PPM to `headless.ppm`.  `mem`
abstracts the mapped memory: it maps byte offsets (relative to
`subResourceLayout.offset`) to byte values. -/

/-- `loopConcat f n = f 0 ++ f 1 ++ ... ++ f (n-1)`: the byte stream
produced by a loop running `i = 0 .. n-1` and writing `f i` each turn. -/
def loopConcat (f : Nat → List Nat) : Nat → List Nat
  | 0 => []
  | n + 1 => loopConcat f n ++ f n

/-- Bytes written for pixel `x` of the row starting at byte offset `base`
(sample_example.cpp:471-485): `colorSwizzle` is forced `true` at line 468,
so the bytes at offsets 2, 1, 0 of the 4-byte pixel are written in that
order (the `unsigned int* row` pointer advances 4 bytes per pixel). -/
def pixelOut (mem : Nat → Nat) (base x : Nat) : List Nat :=
  [mem (base + 4 * x + 2), mem (base + 4 * x + 1), mem (base + 4 * x)]

/-- One iteration of the outer `y` loop: `width` pixels read from the row
starting at `base`. -/
def rowOut (mem : Nat → Nat) (base width : Nat) : List Nat :=
  loopConcat (pixelOut mem base) width

/-- The PPM pixel payload: row `y` starts at `y * rowPitch`, because
`imagedata += subResourceLayout.rowPitch` advances the row pointer by the
reported pitch, never by a computed tight stride. -/
def dumpData (mem : Nat → Nat) (width height rowPitch : Nat) : List Nat :=
  loopConcat (fun y => rowOut mem (y * rowPitch) width) height

/-- Header `file << "P6\n" << width << "\n" << height << "\n" << 255 << "\n"`
(sample_example.cpp:464). -/
def ppmHeader (width height : Nat) : String :=
  "P6\n" ++ toString width ++ "\n" ++ toString height ++ "\n" ++ toString 255 ++ "\n"

/-- The byte stream `dumpImage` writes to `headless.ppm`. -/
def dumpImageBytes (mem : Nat → Nat) (width height rowPitch : Nat) : List Nat :=
  (ppmHeader width height).data.map Char.toNat ++ dumpData mem width height rowPitch

theorem loopConcat_length (f : Nat → List Nat) (L : Nat)
    (h : ∀ i, (f i).length = L) : ∀ n, (loopConcat f n).length = n * L := by
  intro n
  induction n with
  | zero => simp [loopConcat]
  | succ k ih => simp [loopConcat, ih, h, Nat.succ_mul]

theorem loopConcat_getElem (f : Nat → List Nat) (L : Nat)
    (h : ∀ i, (f i).length = L) :
    ∀ n i j, i < n → j < L → (loopConcat f n)[L * i + j]? = (f i)[j]? := by
  intro n
  induction n with
  | zero => intro i j hi; cases hi
  | succ k ih =>
    intro i j hi hj
    have hlen : (loopConcat f k).length = k * L := loopConcat_length f L h k
    rcases Nat.lt_or_ge i k with hik | hik
    · have hx : L * i + j < (loopConcat f k).length := by
        rw [hlen]
        calc L * i + j < L * i + L := by omega
        _ = L * (i + 1) := by ring
        _ ≤ L * k := Nat.mul_le_mul_left L hik
        _ = k * L := Nat.mul_comm L k
      rw [loopConcat, List.getElem?_append_left hx]
      exact ih i j hik hj
    · have hik' : i = k := by omega
      subst hik'
      have hx : (loopConcat f i).length ≤ L * i + j := by
        rw [hlen, Nat.mul_comm i L]
        exact Nat.le_add_right _ _
      rw [loopConcat, List.getElem?_append_right hx, hlen, Nat.mul_comm i L,
        Nat.add_sub_cancel_left]

/-! #### C5 -/

/-- C5: for every extent and every row pitch at least `width * 4`, the
exported file is exactly the header bytes `P6\n<width>\n<height>\n255\n`
followed by exactly `width * height * 3` data bytes; the byte at data
position `3 * (y * width + x) + c` is the source byte at offset
`y * rowPitch + 4 * x + (2 - c)` — rows are read starting at multiples of
the reported pitch, each pixel contributes 3 bytes in swapped channel
order, and every byte read lies below offset `4 * width` of its row, so
no pitch padding reaches the output. -/
theorem dumpImage_ppm (mem : Nat → Nat) (width height rowPitch : Nat)
    (hpitch : width * 4 ≤ rowPitch) :
    dumpImageBytes mem width height rowPitch =
      (("P6\n" ++ toString width ++ "\n" ++ toString height ++ "\n" ++ "255" ++ "\n").data.map
        Char.toNat) ++ dumpData mem width height rowPitch ∧
    (dumpData mem width height rowPitch).length = width * height * 3 ∧
    (∀ y x c, y < height → x < width → c < 3 →
      (dumpData mem width height rowPitch)[3 * (y * width + x) + c]? =
        some (mem (y * rowPitch + 4 * x + (2 - c)))) ∧
    (∀ x, x < width → 4 * x + 2 < rowPitch) := by
  have hrow : ∀ b, (rowOut mem b width).length = width * 3 := fun b =>
    loopConcat_length (pixelOut mem b) 3 (fun _ => rfl) width
  refine ⟨rfl, ?_, ?_, ?_⟩
  · have := loopConcat_length (fun y => rowOut mem (y * rowPitch) width)
      (width * 3) (fun y => hrow _) height
    rw [dumpData, this]; ring
  · intro y x c hy hx hc
    have hidx : 3 * (y * width + x) + c = (width * 3) * y + (3 * x + c) := by ring
    rw [dumpData, hidx,
      loopConcat_getElem _ (width * 3) (fun i => hrow _) height y (3 * x + c) hy (by omega),
      rowOut, loopConcat_getElem (pixelOut mem (y * rowPitch)) 3 (fun _ => rfl)
        width x c hx hc]
    rcases c with _ | c
    · rfl
    · rcases c with _ | c
      · rfl
      · rcases c with _ | c
        · rfl
        · omega
  · intro x hx; omega

/-- Witness for C5 at `width = 2`, `height = 1`, `rowPitch = 12` (a pitch
exceeding the tight `width * 4 = 8`), with `mem` the identity byte map. -/
theorem dumpImage_ppm_witness :
    dumpImageBytes (fun o => o) 2 1 12 =
      (("P6\n" ++ toString 2 ++ "\n" ++ toString 1 ++ "\n" ++ "255" ++ "\n").data.map
        Char.toNat) ++ dumpData (fun o => o) 2 1 12 ∧
    (dumpData (fun o => o) 2 1 12).length = 2 * 1 * 3 ∧
    (∀ y x c, y < 1 → x < 2 → c < 3 →
      (dumpData (fun o => o) 2 1 12)[3 * (y * 2 + x) + c]? =
        some ((fun o => o) (y * 12 + 4 * x + (2 - c)))) ∧
    (∀ x, x < 2 → 4 * x + 2 < 12) :=
  dumpImage_ppm (fun o => o) 2 1 12 (by decide)

end VkRT
